import Mathlib

/-!
Verification of the `quorum` single-decree Paxos repository.

The Go sources are shallowly embedded below.  Pure data (proposal
identifiers, message structs) become Lean structures; the proposer's
stateful loops (`Propose`, `runPhase1`, `runPhase2`) become recursive
functions over an explicit list of transport receive results; the
in-memory storage with its slice aliasing becomes explicit state plus a
small heap of byte buffers.  Go `int64` arithmetic is modelled on `Int`
with an explicit two's-complement wrap where the code increments.
-/

namespace Quorum

/-- Byte strings (Go `[]byte` contents). -/
abbrev Bytes := List Nat

/-- Go `int64` two's-complement wraparound applied after arithmetic. -/
def wrap64 (n : Int) : Int := (n + 2 ^ 63) % 2 ^ 64 - 2 ^ 63

/-- Modelled from the spec: `internal/paxos/proposal.go` contains only TODO
comments and no Go definitions, so the proposal identifier is taken from
spec §3.1: a pair `(round, proposer_id)` ordered lexicographically, round
first, proposer id (string order) as tiebreaker. -/
structure ProposalNumber where
  Round : Int
  ProposerID : String
deriving DecidableEq, Repr

/-- Modelled from the spec: the designated zero identifier
`(round = 0, empty proposer)` of spec §3.1. -/
def zeroPN : ProposalNumber := { Round := 0, ProposerID := "" }

/-- Modelled from the spec: equality test on proposal identifiers
(`ProposalNumber.Equal` is described in proposal.go's TODO list only). -/
def ProposalNumber.Equal (a b : ProposalNumber) : Bool :=
  decide (a.Round = b.Round) && decide (a.ProposerID = b.ProposerID)

/-- Modelled from the spec: strict lexicographic comparison, round first
then proposer id (`ProposalNumber.GreaterThan` of proposal.go's TODO). -/
def ProposalNumber.GreaterThan (a b : ProposalNumber) : Bool :=
  decide (b.Round < a.Round) ||
    (decide (a.Round = b.Round) && decide (b.ProposerID < a.ProposerID))

/-- Modelled from the spec: `IsZero` returns true on the zero value
identifier (proposal.go TODO; spec §3.1). -/
def ProposalNumber.IsZero (a : ProposalNumber) : Bool :=
  a.Equal zeroPN

/-- The comparison `a ≥ b` on identifiers, the disjunction
`GreaterThan || Equal` that `HandleAccept` writes inline as its guard. -/
def ProposalNumber.GreaterEq (a b : ProposalNumber) : Bool :=
  a.GreaterThan b || a.Equal b

/-- `Prepare` message struct of `internal/paxos/message.go`. -/
structure Prepare where
  ProposalNumber : Quorum.ProposalNumber
  From : String
deriving DecidableEq, Repr

/-- `Promise` message struct of `internal/paxos/message.go`. -/
structure Promise where
  ProposalNumber : Quorum.ProposalNumber
  AcceptedProposal : Quorum.ProposalNumber
  AcceptedValue : Bytes
  From : String
  OK : Bool
deriving DecidableEq, Repr

/-- `Reject` message struct of `internal/paxos/message.go`. -/
structure Reject where
  ProposalNumber : Quorum.ProposalNumber
  HighestSeen : Quorum.ProposalNumber
  From : String
deriving DecidableEq, Repr

/-- `Accept` message struct of `internal/paxos/message.go`. -/
structure Accept where
  ProposalNumber : Quorum.ProposalNumber
  Value : Bytes
  From : String
deriving DecidableEq, Repr

/-- `Accepted` message struct of `internal/paxos/message.go`. -/
structure Accepted where
  ProposalNumber : Quorum.ProposalNumber
  Value : Bytes
  From : String
  OK : Bool
deriving DecidableEq, Repr

/-- `Learn` message struct of `internal/paxos/message.go`. -/
structure Learn where
  ProposalNumber : Quorum.ProposalNumber
  Value : Bytes
  From : String
deriving DecidableEq, Repr

/-- The tagged union of wire messages (Go passes these as `interface{}`
values; the proposer type-switches on the dynamic type). -/
inductive Msg
  | prepare (m : Prepare)
  | promise (m : Promise)
  | reject (m : Reject)
  | accept (m : Accept)
  | accepted (m : Accepted)
  | learn (m : Learn)
deriving DecidableEq, Repr

/-- One result of `transport.Receive()`: either a delivered message or a
transport error (`msg, err := p.transport.Receive()`). -/
inductive RecvResult
  | msg (m : Msg)
  | err
deriving DecidableEq, Repr

/-- The `Proposer` struct of the proposer file (`id`, `highestRound`,
`currentProposal`, `originalValue`, `valueToPropose`, `promise`,
`quorumSize`; the transport and mutex are modelled by the explicit
receive stream and by sequential execution). -/
structure ProposerState where
  id : String
  highestRound : Int
  currentProposal : Quorum.ProposalNumber
  originalValue : Bytes
  valueToPropose : Bytes
  promise : List Promise
  quorumSize : Nat
deriving DecidableEq, Repr

/-- `NewProposer`: zero-valued fields apart from id, quorum size. -/
def NewProposer (id : String) (quorumSize : Nat) : ProposerState :=
  { id := id
    highestRound := 0
    currentProposal := zeroPN
    originalValue := []
    valueToPropose := []
    promise := []
    quorumSize := quorumSize }

/-- `Proposer.generateProposalNumber`: increment `highestRound` (Go
`int64` increment, hence the wrap) and emit `(highestRound, id)`. -/
def generateProposalNumber (s : ProposerState) : ProposerState × ProposalNumber :=
  let r := wrap64 (s.highestRound + 1)
  ({ s with highestRound := r }, { Round := r, ProposerID := s.id })

/-- `Proposer.handleRejection`: raise `highestRound` to the reported
round when it is larger. -/
def handleRejection (s : ProposerState) (highestSeen : ProposalNumber) : ProposerState :=
  if s.highestRound < highestSeen.Round then
    { s with highestRound := highestSeen.Round }
  else s

/-- The start of one attempt inside `Proposer.Propose`'s retry loop:
`p.currentProposal = p.generateProposalNumber(); p.promise = nil`.
Note that `valueToPropose` is left untouched here. -/
def startAttempt (s : ProposerState) : ProposerState :=
  let (s1, pn) := generateProposalNumber s
  { s1 with currentProposal := pn, promise := [] }

/-- The adoption scan at the end of `runPhase1` (lines 328–336): walk the
collected promises keeping the running `highestAccepted`; each promise
with a non-zero accepted proposal greater than the running maximum
overwrites `valueToPropose`. -/
def adoptAux (s : ProposerState) (hi : ProposalNumber) : List Promise → ProposerState
  | [] => s
  | pm :: rest =>
    if pm.AcceptedProposal.IsZero then adoptAux s hi rest
    else if pm.AcceptedProposal.GreaterThan hi then
      adoptAux { s with valueToPropose := pm.AcceptedValue } pm.AcceptedProposal rest
    else adoptAux s hi rest

/-- The adoption scan started with the zero `highestAccepted`, over the
proposer's collected `promise` slice. -/
def adoptState (s : ProposerState) : ProposerState :=
  adoptAux s zeroPN s.promise

/-- Phase outcome: Go's `nil` return, `ErrRejected`, a transport receive
error, or the stream running out while the loop is still waiting (the Go
loop would block forever at that point). -/
inductive PhaseOut
  | success
  | rejected
  | transportErr
  | blocked
deriving DecidableEq, Repr

/-- The collection loop of `runPhase1`: receive until `quorumSize`
matching affirmative Promises are appended; a non-matching or non-Promise
message is skipped; an `ok=false` Promise triggers
`handleRejection(promise.AcceptedProposal)` and `ErrRejected`; a receive
error aborts the phase.  On quorum the adoption scan runs. -/
def phase1Aux : ProposerState → Nat → List RecvResult →
    ProposerState × PhaseOut × List RecvResult
  | s, count, [] =>
    if count < s.quorumSize then (s, PhaseOut.blocked, [])
    else (adoptState s, PhaseOut.success, [])
  | s, count, r :: rest =>
    if count < s.quorumSize then
      match r with
      | RecvResult.err => (s, PhaseOut.transportErr, rest)
      | RecvResult.msg (Msg.promise pm) =>
        if pm.ProposalNumber.Equal s.currentProposal then
          if pm.OK then
            phase1Aux { s with promise := s.promise ++ [pm] } (count + 1) rest
          else
            (handleRejection s pm.AcceptedProposal, PhaseOut.rejected, rest)
        else
          phase1Aux s count rest
      | RecvResult.msg _ => phase1Aux s count rest
    else
      (adoptState s, PhaseOut.success, r :: rest)

/-- `Proposer.runPhase1`: broadcast Prepare (the returned `sent` list),
then run the collection loop with a fresh count. -/
def runPhase1 (s : ProposerState) (stream : List RecvResult) :
    (ProposerState × PhaseOut × List RecvResult) × List Msg :=
  (phase1Aux s 0 stream,
   [Msg.prepare { ProposalNumber := s.currentProposal, From := s.id }])

/-- The collection loop of `runPhase2`: receive until `quorumSize`
matching affirmative Accepteds are counted; a mismatching or non-Accepted
message is skipped; an `ok=false` Accepted returns `ErrRejected` with no
state change; a receive error aborts the phase.  The proposer state is
threaded through unchanged, mirroring that the Go loop never writes any
`Proposer` field. -/
def phase2Aux : ProposerState → Nat → List RecvResult →
    ProposerState × PhaseOut × List RecvResult
  | s, count, [] =>
    if count < s.quorumSize then (s, PhaseOut.blocked, [])
    else (s, PhaseOut.success, [])
  | s, count, r :: rest =>
    if count < s.quorumSize then
      match r with
      | RecvResult.err => (s, PhaseOut.transportErr, rest)
      | RecvResult.msg (Msg.accepted am) =>
        if am.ProposalNumber.Equal s.currentProposal then
          if am.OK then phase2Aux s (count + 1) rest
          else (s, PhaseOut.rejected, rest)
        else
          phase2Aux s count rest
      | RecvResult.msg _ => phase2Aux s count rest
    else
      (s, PhaseOut.success, r :: rest)

/-- `Proposer.runPhase2`: broadcast `Accept{currentProposal,
valueToPropose}`, run the collection loop, and on success broadcast
`Learn{currentProposal, valueToPropose}`. -/
def runPhase2 (s : ProposerState) (stream : List RecvResult) :
    (ProposerState × PhaseOut × List RecvResult) × List Msg :=
  let r := phase2Aux s 0 stream
  let acc := Msg.accept { ProposalNumber := s.currentProposal, Value := s.valueToPropose, From := s.id }
  match r with
  | (s', PhaseOut.success, rest) =>
    ((s', PhaseOut.success, rest),
     [acc, Msg.learn { ProposalNumber := s'.currentProposal, Value := s'.valueToPropose, From := s'.id }])
  | other => (other, [acc])

/-- Result of the `Propose` retry loop on a finite receive stream:
either the Go function returned a value, or it is still running (the Go
loop never breaks out with an error — every failed phase `continue`s). -/
inductive ProposeResult
  | value (v : Bytes)
  | running
deriving DecidableEq, Repr

/-- The `for { ... }` retry loop of `Proposer.Propose`, with fuel
bounding how many attempts we unfold.  Each attempt regenerates the
proposal number, clears `promise`, runs Phase 1 then Phase 2, and
`continue`s on any error. -/
def proposeLoop : Nat → ProposerState → List RecvResult → ProposeResult
  | 0, _, _ => ProposeResult.running
  | fuel + 1, s, stream =>
    let s1 := startAttempt s
    match (runPhase1 s1 stream).1 with
    | (_, PhaseOut.blocked, _) => ProposeResult.running
    | (s2, PhaseOut.transportErr, rest) => proposeLoop fuel s2 rest
    | (s2, PhaseOut.rejected, rest) => proposeLoop fuel s2 rest
    | (s2, PhaseOut.success, rest) =>
      match (runPhase2 s2 rest).1 with
      | (_, PhaseOut.blocked, _) => ProposeResult.running
      | (s3, PhaseOut.transportErr, rest2) => proposeLoop fuel s3 rest2
      | (s3, PhaseOut.rejected, rest2) => proposeLoop fuel s3 rest2
      | (s3, PhaseOut.success, _) => ProposeResult.value s3.valueToPropose

/-- `Proposer.Propose`: store the client value as both `originalValue`
and `valueToPropose`, then run the retry loop. -/
def Propose (s : ProposerState) (value : Bytes) (fuel : Nat)
    (stream : List RecvResult) : ProposeResult :=
  proposeLoop fuel { s with originalValue := value, valueToPropose := value } stream

/-- Which dispatch arm of `Node.routeMessage` a message reaches.  The Go
switch has a value case and a pointer case per recognized kind; both map
to the same arm here.  `unknownDropped` is the `default:` arm, which only
logs `unknown message type` and discards the message. -/
inductive RouteAction
  | handledPrepare
  | handledAccept
  | learnerAccepted
  | learnerLearn
  | unknownDropped
deriving DecidableEq, Repr

/-- `Node.routeMessage` (`internal/paxos/message.go`, node part): the
switch dispatches `Prepare`/`*Prepare` to the acceptor, `Accept`/
`*Accept` to the acceptor (plus local learner on ok), `Accepted`/
`*Accepted` and `Learn`/`*Learn` to the learner, and everything else —
including `Promise` and `Reject` — to the logging `default:` arm. -/
def routeMessage : Msg → RouteAction
  | Msg.prepare _ => RouteAction.handledPrepare
  | Msg.accept _ => RouteAction.handledAccept
  | Msg.accepted _ => RouteAction.learnerAccepted
  | Msg.learn _ => RouteAction.learnerLearn
  | Msg.promise _ => RouteAction.unknownDropped
  | Msg.reject _ => RouteAction.unknownDropped

/-- A heap of Go byte slices: cell contents by address plus the next
fresh address.  `make([]byte, ...)` allocates a fresh cell; writing
through one slice must not disturb a distinct cell. -/
structure GoHeap where
  cells : Nat → Bytes
  next : Nat

/-- Dereference a slice address. -/
def readCell (h : GoHeap) (a : Nat) : Bytes := h.cells a

/-- Mutate the buffer behind a slice in place. -/
def writeCell (h : GoHeap) (a : Nat) (v : Bytes) : GoHeap :=
  { h with cells := fun i => if i = a then v else h.cells i }

/-- `make` + `copy`: allocate a fresh cell holding `v`. -/
def allocCell (h : GoHeap) (v : Bytes) : GoHeap × Nat :=
  ({ cells := fun i => if i = h.next then v else h.cells i, next := h.next + 1 }, h.next)

/-- Contents of a possibly-nil Go slice (`len(nil) = 0`). -/
def readSlice (h : GoHeap) : Option Nat → Bytes
  | none => []
  | some a => readCell h a

/-- The `MemoryStorage` struct of `internal/storage/memory.go`; the
`acceptedValue []byte` field is a possibly-nil slice, i.e. an optional
heap address. -/
structure MemoryStorage where
  highestPromised : ProposalNumber
  acceptedProposal : ProposalNumber
  acceptedValue : Option Nat

/-- `NewMemoryStorage`: zero-valued fields. -/
def NewMemoryStorage : MemoryStorage :=
  { highestPromised := zeroPN, acceptedProposal := zeroPN, acceptedValue := none }

/-- `MemoryStorage.SavePromised`: store the proposal number. -/
def MemoryStorage.SavePromised (m : MemoryStorage) (proposal : ProposalNumber) :
    MemoryStorage :=
  { m with highestPromised := proposal }

/-- `MemoryStorage.LoadPromised`: return the stored proposal number. -/
def MemoryStorage.LoadPromised (m : MemoryStorage) : ProposalNumber :=
  m.highestPromised

/-- `MemoryStorage.SaveAccepted`: store the proposal and a defensive
copy (`make` + `copy`) of the caller's value buffer. -/
def MemoryStorage.SaveAccepted (m : MemoryStorage) (h : GoHeap)
    (proposal : ProposalNumber) (value : Option Nat) : MemoryStorage × GoHeap :=
  let (h', a) := allocCell h (readSlice h value)
  ({ m with acceptedProposal := proposal, acceptedValue := some a }, h')

/-- `MemoryStorage.LoadAccepted`: return the stored proposal and a fresh
copy (`make` + `copy`) of the stored value buffer. -/
def MemoryStorage.LoadAccepted (m : MemoryStorage) (h : GoHeap) :
    (ProposalNumber × Nat) × GoHeap :=
  let (h', a) := allocCell h (readSlice h m.acceptedValue)
  ((m.acceptedProposal, a), h')

/-- `MemoryStorage.Close`: reset all three fields to their zero values
(`ProposalNumber{}`, `ProposalNumber{}`, `nil`). -/
def MemoryStorage.Close (_m : MemoryStorage) : MemoryStorage :=
  { highestPromised := zeroPN, acceptedProposal := zeroPN, acceptedValue := none }

/-- `toStorageProposal` of the acceptor implementation: converts the
paxos-package proposal number into the storage-package one by rebuilding
the `(Round, ProposerID)` pair field by field.  Both Go types carry
exactly these fields (and both are declared only in TODO comments, so
both are the spec-modelled `ProposalNumber` here). -/
def toStorageProposal (p : ProposalNumber) : ProposalNumber :=
  { Round := p.Round, ProposerID := p.ProposerID }

/-- The `Acceptor` struct of the repository's acceptor implementation
(`package paxos`): `id`, the three protocol fields, and the `storage`
field.  The `Storage` interface is instantiated with `MemoryStorage`,
its one implemented backing; the mutex is modelled by sequential
execution. -/
structure Acceptor where
  id : String
  highestPromised : ProposalNumber
  acceptedProposal : ProposalNumber
  acceptedValue : Bytes
  storage : MemoryStorage

/-- `NewAcceptor`: build the acceptor over the given storage and
rehydrate `highestPromised` from `LoadPromised` and the accepted pair
from `LoadAccepted`.  `MemoryStorage` never returns an error, so both
`err == nil` branches are taken; the acceptor keeps the contents of the
copied value buffer `LoadAccepted` returns. -/
def NewAcceptor (id : String) (s : MemoryStorage) (h : GoHeap) : Acceptor × GoHeap :=
  let promised := s.LoadPromised
  let la := s.LoadAccepted h
  ({ id := id
     highestPromised := { Round := promised.Round, ProposerID := promised.ProposerID }
     acceptedProposal := { Round := la.1.1.Round, ProposerID := la.1.1.ProposerID }
     acceptedValue := readCell la.2 la.1.2
     storage := s }, la.2)

/-- `Acceptor.HandlePrepare` of the repository's acceptor
implementation: if `msg.ProposalNumber.GreaterThan(a.highestPromised)`,
update `highestPromised`, persist it through `storage.SavePromised`, and
return an affirmative Promise reporting the prior accepted pair;
otherwise return a rejecting Promise whose `AcceptedProposal` field
carries `highestPromised` as guidance (its `AcceptedValue` is the Go
zero value `nil`).  No byte buffer moves, so no heap is involved. -/
def HandlePrepare (a : Acceptor) (msg : Prepare) : Acceptor × Promise :=
  if msg.ProposalNumber.GreaterThan a.highestPromised then
    let st := a.storage.SavePromised (toStorageProposal msg.ProposalNumber)
    ({ a with highestPromised := msg.ProposalNumber, storage := st },
     { OK := true
       ProposalNumber := msg.ProposalNumber
       AcceptedProposal := a.acceptedProposal
       AcceptedValue := a.acceptedValue
       From := a.id })
  else
    (a,
     { OK := false
       ProposalNumber := msg.ProposalNumber
       AcceptedProposal := a.highestPromised
       AcceptedValue := []
       From := a.id })

/-- `Acceptor.HandleAccept` of the repository's acceptor implementation:
if `msg.ProposalNumber.GreaterThan(a.highestPromised) ||
msg.ProposalNumber.Equal(a.highestPromised)`, update all three protocol
fields, persist through `storage.SavePromised` and
`storage.SaveAccepted`, and return an affirmative Accepted; otherwise
reject with no state change.  Messages in this embedding carry byte
contents, so the Accept's value buffer is materialized as a heap cell
before `SaveAccepted` (which then makes its own defensive copy, exactly
as in the storage round-trip development). -/
def HandleAccept (a : Acceptor) (h : GoHeap) (msg : Accept) :
    (Acceptor × GoHeap) × Accepted :=
  if msg.ProposalNumber.GreaterThan a.highestPromised
      || msg.ProposalNumber.Equal a.highestPromised then
    let hv := allocCell h msg.Value
    let st1 := a.storage.SavePromised (toStorageProposal msg.ProposalNumber)
    let sv := st1.SaveAccepted hv.1 (toStorageProposal msg.ProposalNumber) (some hv.2)
    (({ a with
          highestPromised := msg.ProposalNumber
          acceptedProposal := msg.ProposalNumber
          acceptedValue := msg.Value
          storage := sv.1 }, sv.2),
     { ProposalNumber := msg.ProposalNumber, Value := msg.Value, From := a.id, OK := true })
  else
    ((a, h),
     { ProposalNumber := msg.ProposalNumber, Value := [], From := a.id, OK := false })

/-- `Acceptor.GetState`: the debug read of the three protocol fields. -/
def Acceptor.GetState (a : Acceptor) : ProposalNumber × ProposalNumber × Bytes :=
  (a.highestPromised, a.acceptedProposal, a.acceptedValue)

/-- One proposer-local event relevant to proposal-number generation: a
call to `generateProposalNumber`, or processing a rejection carrying some
reported identifier via `handleRejection`. -/
inductive POp
  | gen
  | rej (pn : ProposalNumber)

/-- Run a sequence of generation/rejection events against the proposer,
collecting the emitted proposal identifiers in order. -/
def runOps : ProposerState → List POp → ProposerState × List ProposalNumber
  | s, [] => (s, [])
  | s, POp.gen :: rest =>
    let (s1, pn) := generateProposalNumber s
    let (s2, l) := runOps s1 rest
    (s2, pn :: l)
  | s, POp.rej pn :: rest => runOps (handleRejection s pn) rest

/-- The rounds reported by the rejection events of an event list. -/
def rejRounds (ops : List POp) : List Int :=
  ops.filterMap fun o =>
    match o with
    | POp.rej pn => some pn.Round
    | POp.gen => none

/-! Order lemmas for proposal identifiers. -/

theorem string_not_lt_empty (s : String) : ¬ s < "" := by
  intro h
  rw [String.lt_iff_toList_lt] at h
  rcases hs : s.toList with _ | ⟨c, cs⟩
  · rw [hs] at h; cases h
  · rw [hs] at h; cases h

theorem string_empty_lt (s : String) (h : s ≠ "") : "" < s := by
  simp only [String.lt_iff_toList_lt, String.toList_empty]
  rw [String.toList_nonempty h]
  exact List.nil_lt_cons _ _

theorem gt_irrefl' (a : ProposalNumber) : a.GreaterThan a = false := by
  simp [ProposalNumber.GreaterThan]

theorem gt_asymm' {a b : ProposalNumber} (h : a.GreaterThan b = true) :
    b.GreaterThan a = false := by
  simp only [ProposalNumber.GreaterThan, Bool.or_eq_true, Bool.and_eq_true,
    decide_eq_true_eq] at h
  simp only [ProposalNumber.GreaterThan, Bool.or_eq_false_iff, Bool.and_eq_false_iff,
    decide_eq_false_iff_not]
  rcases h with h | ⟨hr, hs⟩
  · exact ⟨fun hc => absurd hc (not_lt_of_lt h), Or.inl (ne_of_lt h)⟩
  · exact ⟨fun hc => absurd hc (hr ▸ lt_irrefl _), Or.inr (lt_asymm hs)⟩

theorem gt_trans' {a b c : ProposalNumber} (hab : a.GreaterThan b = true)
    (hbc : b.GreaterThan c = true) : a.GreaterThan c = true := by
  simp only [ProposalNumber.GreaterThan, Bool.or_eq_true, Bool.and_eq_true,
    decide_eq_true_eq] at hab hbc ⊢
  rcases hab with h1 | ⟨h1r, h1s⟩ <;> rcases hbc with h2 | ⟨h2r, h2s⟩
  · exact Or.inl (lt_trans h2 h1)
  · exact Or.inl (h2r ▸ h1)
  · exact Or.inl (h1r ▸ h2)
  · exact Or.inr ⟨h1r.trans h2r, lt_trans h2s h1s⟩

theorem iszero_eq {a : ProposalNumber} (h : a.IsZero = true) : a = zeroPN := by
  simp only [ProposalNumber.IsZero, ProposalNumber.Equal, Bool.and_eq_true,
    decide_eq_true_eq] at h
  cases a
  simp_all [zeroPN]

theorem zero_not_gt {a : ProposalNumber} (h0 : 0 ≤ a.Round) :
    zeroPN.GreaterThan a = false := by
  simp only [ProposalNumber.GreaterThan, zeroPN, Bool.or_eq_false_iff,
    Bool.and_eq_false_iff, decide_eq_false_iff_not]
  exact ⟨not_lt_of_le h0, Or.inr (string_not_lt_empty _)⟩

theorem nonzero_gt_zero {a : ProposalNumber} (h0 : 0 ≤ a.Round)
    (hnz : a.IsZero = false) : a.GreaterThan zeroPN = true := by
  simp only [ProposalNumber.IsZero, ProposalNumber.Equal, zeroPN, Bool.and_eq_false_iff,
    decide_eq_false_iff_not] at hnz
  simp only [ProposalNumber.GreaterThan, zeroPN, Bool.or_eq_true, Bool.and_eq_true,
    decide_eq_true_eq]
  rcases hnz with h | h
  · exact Or.inl (lt_of_le_of_ne h0 (Ne.symm h))
  · rcases eq_or_lt_of_le h0 with heq | hlt
    · exact Or.inr ⟨heq.symm, string_empty_lt _ h⟩
    · exact Or.inl hlt

/-! Structural lemmas about the phase loops. -/

theorem phase2Aux_fst : ∀ (stream : List RecvResult) (s : ProposerState) (count : Nat),
    (phase2Aux s count stream).1 = s := by
  intro stream
  induction stream with
  | nil =>
    intro s count
    simp only [phase2Aux]
    split <;> rfl
  | cons r rest ih =>
    intro s count
    simp only [phase2Aux]
    split
    · cases r with
      | err => rfl
      | msg m =>
        cases m with
        | accepted am =>
          dsimp only
          split
          · split
            · exact ih s (count + 1)
            · rfl
          · exact ih s count
        | prepare m => exact ih s count
        | promise m => exact ih s count
        | reject m => exact ih s count
        | accept m => exact ih s count
        | learn m => exact ih s count
    · rfl

theorem adoptAux_promise : ∀ (l : List Promise) (s : ProposerState) (hi : ProposalNumber),
    (adoptAux s hi l).promise = s.promise := by
  intro l
  induction l with
  | nil => intro s hi; rfl
  | cons x rest ih =>
    intro s hi
    simp only [adoptAux]
    split
    · exact ih s hi
    · split
      · exact ih _ _
      · exact ih s hi

theorem adoptAux_spec : ∀ (l : List Promise) (s : ProposerState) (hi : ProposalNumber),
    (∀ p ∈ l, 0 ≤ p.AcceptedProposal.Round) →
    ((∀ p ∈ l, p.AcceptedProposal.IsZero = false →
        p.AcceptedProposal.GreaterThan hi = false)
      ∧ adoptAux s hi l = s)
    ∨ (∃ p, p ∈ l ∧ p.AcceptedProposal.IsZero = false
        ∧ p.AcceptedProposal.GreaterThan hi = true
        ∧ adoptAux s hi l = { s with valueToPropose := p.AcceptedValue }
        ∧ ∀ q ∈ l, q.AcceptedProposal.GreaterThan p.AcceptedProposal = false) := by
  intro l
  induction l with
  | nil =>
    intro s hi _
    exact Or.inl ⟨by simp, rfl⟩
  | cons x rest ih =>
    intro s hi hwf
    have hwfx : 0 ≤ x.AcceptedProposal.Round := hwf x (List.mem_cons_self x rest)
    have hwfr : ∀ p ∈ rest, 0 ≤ p.AcceptedProposal.Round :=
      fun p hp => hwf p (List.mem_cons_of_mem _ hp)
    cases hz : x.AcceptedProposal.IsZero with
    | true =>
      have hxz : x.AcceptedProposal = zeroPN := iszero_eq hz
      have hstep : adoptAux s hi (x :: rest) = adoptAux s hi rest := by
        simp [adoptAux, hz]
      rcases ih s hi hwfr with ⟨hall, heq⟩ | ⟨p, hp, hnz, hgt, heq, hmax⟩
      · left
        refine ⟨?_, hstep ▸ heq⟩
        intro p hp hnzp
        rcases List.mem_cons.mp hp with rfl | hp'
        · simp [hz] at hnzp
        · exact hall p hp' hnzp
      · right
        refine ⟨p, List.mem_cons_of_mem _ hp, hnz, hgt, hstep ▸ heq, ?_⟩
        intro q hq
        rcases List.mem_cons.mp hq with rfl | hq'
        · rw [hxz]
          exact zero_not_gt (hwfr p hp)
        · exact hmax q hq'
    | false =>
      cases hg : x.AcceptedProposal.GreaterThan hi with
      | true =>
        have hstep : adoptAux s hi (x :: rest) =
            adoptAux { s with valueToPropose := x.AcceptedValue } x.AcceptedProposal rest := by
          simp [adoptAux, hz, hg]
        rcases ih { s with valueToPropose := x.AcceptedValue } x.AcceptedProposal hwfr with
          ⟨hall, heq⟩ | ⟨p, hp, hnz, hgt, heq, hmax⟩
        · right
          refine ⟨x, List.mem_cons_self _ _, hz, hg, hstep ▸ heq, ?_⟩
          intro q hq
          rcases List.mem_cons.mp hq with rfl | hq'
          · exact gt_irrefl' _
          · cases hqz : q.AcceptedProposal.IsZero with
            | true => rw [iszero_eq hqz]; exact zero_not_gt hwfx
            | false => exact hall q hq' hqz
        · right
          have heq' : adoptAux s hi (x :: rest) = { s with valueToPropose := p.AcceptedValue } := by
            rw [hstep, heq]
          refine ⟨p, List.mem_cons_of_mem _ hp, hnz, gt_trans' hgt hg, heq', ?_⟩
          intro q hq
          rcases List.mem_cons.mp hq with rfl | hq'
          · exact gt_asymm' hgt
          · exact hmax q hq'
      | false =>
        have hstep : adoptAux s hi (x :: rest) = adoptAux s hi rest := by
          simp [adoptAux, hz, hg]
        rcases ih s hi hwfr with ⟨hall, heq⟩ | ⟨p, hp, hnz, hgt, heq, hmax⟩
        · left
          refine ⟨?_, hstep ▸ heq⟩
          intro p hp hnzp
          rcases List.mem_cons.mp hp with rfl | hp'
          · exact hg
          · exact hall p hp' hnzp
        · right
          refine ⟨p, List.mem_cons_of_mem _ hp, hnz, hgt, hstep ▸ heq, ?_⟩
          intro q hq
          rcases List.mem_cons.mp hq with rfl | hq'
          · cases hxp : q.AcceptedProposal.GreaterThan p.AcceptedProposal with
            | false => rfl
            | true => exact absurd (gt_trans' hxp hgt) (by simp [hg])
          · exact hmax q hq'

theorem phase1Aux_success : ∀ (stream : List RecvResult) (s : ProposerState) (count : Nat)
    (s' : ProposerState) (rest : List RecvResult),
    phase1Aux s count stream = (s', PhaseOut.success, rest) →
    ∃ ext : List Promise, s' = adoptState { s with promise := s.promise ++ ext } := by
  intro stream
  induction stream with
  | nil =>
    intro s count s' rest h
    simp only [phase1Aux] at h
    split at h
    · simp at h
    · obtain ⟨h1, -, -⟩ : adoptState s = s' ∧ PhaseOut.success = PhaseOut.success ∧ [] = rest := by
        simpa [Prod.ext_iff] using h
      refine ⟨[], ?_⟩
      rw [List.append_nil]
      exact h1.symm
  | cons r rest' ih =>
    intro s count s' rest h
    simp only [phase1Aux] at h
    split at h
    · cases r with
      | err => simp at h
      | msg m =>
        cases m with
        | promise pm =>
          dsimp only at h
          split at h
          · split at h
            · obtain ⟨ext', hext⟩ := ih _ _ _ _ h
              refine ⟨pm :: ext', ?_⟩
              rw [hext]
              dsimp only
              rw [List.append_assoc]
              rfl
            · simp at h
          · exact ih _ _ _ _ h
        | prepare m => exact ih _ _ _ _ h
        | reject m => exact ih _ _ _ _ h
        | accept m => exact ih _ _ _ _ h
        | accepted m => exact ih _ _ _ _ h
        | learn m => exact ih _ _ _ _ h
    · obtain ⟨h1, -, -⟩ : adoptState s = s'
          ∧ PhaseOut.success = PhaseOut.success ∧ r :: rest' = rest := by
        simpa [Prod.ext_iff] using h
      refine ⟨[], ?_⟩
      rw [List.append_nil]
      exact h1.symm

/-! Claim theorems. -/

/-- C3 (code defect evidence): when every transport `Receive` fails (a
permanently closed transport, modelled by a stream of only errors), the
`Propose` retry loop never returns at all — for any number of attempts it
is still running, re-broadcasting Prepare; no error is ever surfaced to
the caller. -/
theorem c3_closed_transport_retries_forever (fuel n : Nat) (s : ProposerState)
    (hq : 0 < s.quorumSize) :
    proposeLoop fuel s (List.replicate n RecvResult.err) = ProposeResult.running := by
  induction fuel generalizing s n with
  | zero => rfl
  | succ fuel ih =>
    have hq1 : 0 < (startAttempt s).quorumSize := hq
    cases n with
    | zero =>
      simp only [List.replicate, proposeLoop, runPhase1, phase1Aux, if_pos hq1]
    | succ n =>
      have hrep : List.replicate (n + 1) RecvResult.err
          = RecvResult.err :: List.replicate n RecvResult.err := rfl
      rw [hrep]
      simp only [proposeLoop, runPhase1, phase1Aux, if_pos hq1]
      exact ih _ _ hq1

/-- C3 witness: a concrete closed-transport `Propose` run with quorum 1
never terminates within four attempts over seven failing receives. -/
theorem c3_witness :
    0 < (NewProposer "p" 1).quorumSize
    ∧ proposeLoop 4 (NewProposer "p" 1) (List.replicate 7 RecvResult.err)
        = ProposeResult.running :=
  ⟨by decide, c3_closed_transport_retries_forever 4 7 (NewProposer "p" 1) (by decide)⟩

/-- C2 (code defect evidence): with `quorumSize = 2`, delivering the very
same affirmative Promise from acceptor `a1` twice makes `runPhase1`
succeed — both copies are appended and counted, so the "quorum" consists
of a single distinct acceptor id; likewise two identical Accepteds from
`a1` satisfy Phase 2.  The proposer performs no deduplication on `From`. -/
theorem c2_duplicate_counting :
    let s : ProposerState :=
      { id := "p", highestRound := 0, currentProposal := { Round := 1, ProposerID := "p" },
        originalValue := [7], valueToPropose := [7], promise := [], quorumSize := 2 }
    let pm : Promise :=
      { ProposalNumber := { Round := 1, ProposerID := "p" }, AcceptedProposal := zeroPN,
        AcceptedValue := [], From := "a1", OK := true }
    let am : Accepted :=
      { ProposalNumber := { Round := 1, ProposerID := "p" }, Value := [7],
        From := "a1", OK := true }
    ((runPhase1 s [RecvResult.msg (Msg.promise pm), RecvResult.msg (Msg.promise pm)]).1).2.1
        = PhaseOut.success
    ∧ ((runPhase1 s [RecvResult.msg (Msg.promise pm),
          RecvResult.msg (Msg.promise pm)]).1).1.promise.map Promise.From = ["a1", "a1"]
    ∧ ((runPhase2 s [RecvResult.msg (Msg.accepted am),
          RecvResult.msg (Msg.accepted am)]).1).2.1 = PhaseOut.success := by
  decide

/-- C1 (amended): in any Phase 1 attempt (started with an empty promise
slice) that returns success, if some gathered Promise reports a non-zero
accepted proposal (all reported rounds being non-negative, as produced by
well-formed acceptors) then `valueToPropose` equals the accepted value of
a gathered Promise whose accepted proposal no other gathered Promise
exceeds; if no gathered Promise reports a prior accept, `valueToPropose`
is left at the value it had when the attempt began — which is the
client's original value only on the first attempt of a `Propose` call.
In both cases the Phase 2 broadcast (the head of `runPhase2`'s sent list)
is an Accept carrying exactly this `valueToPropose`. -/
theorem c1_value_adoption (s : ProposerState) (stream rest : List RecvResult)
    (s' : ProposerState) (sent : List Msg)
    (hrun : runPhase1 s stream = ((s', PhaseOut.success, rest), sent))
    (hpr : s.promise = [])
    (hwf : ∀ p ∈ s'.promise, 0 ≤ p.AcceptedProposal.Round) :
    ((∃ p ∈ s'.promise, p.AcceptedProposal.IsZero = false) →
      ∃ p ∈ s'.promise, p.AcceptedProposal.IsZero = false
        ∧ s'.valueToPropose = p.AcceptedValue
        ∧ ∀ q ∈ s'.promise, q.AcceptedProposal.GreaterThan p.AcceptedProposal = false)
    ∧ ((∀ p ∈ s'.promise, p.AcceptedProposal.IsZero = true) →
      s'.valueToPropose = s.valueToPropose)
    ∧ (∀ stream2, ((runPhase2 s' stream2).2).head? =
        some (Msg.accept
          { ProposalNumber := s'.currentProposal
            Value := s'.valueToPropose
            From := s'.id })) := by
  have h1 : phase1Aux s 0 stream = (s', PhaseOut.success, rest) := by
    have h := congrArg Prod.fst hrun
    simpa [runPhase1] using h
  obtain ⟨ext, hext⟩ := phase1Aux_success stream s 0 s' rest h1
  rw [hpr] at hext
  simp only [List.nil_append] at hext
  have hsp : s'.promise = ext := by
    rw [hext]
    simp only [adoptState]
    rw [adoptAux_promise]
  have hwf' : ∀ p ∈ ext, 0 ≤ p.AcceptedProposal.Round := by
    rw [hsp] at hwf
    exact hwf
  refine ⟨?_, ?_, ?_⟩
  · rintro ⟨p0, hp0, hnz0⟩
    rw [hsp] at hp0
    rcases adoptAux_spec ext { s with promise := ext } zeroPN hwf' with
      ⟨hall, heq⟩ | ⟨p, hp, hnz, hgt, heq, hmax⟩
    · exact absurd (nonzero_gt_zero (hwf' p0 hp0) hnz0) (by simp [hall p0 hp0 hnz0])
    · refine ⟨p, by rw [hsp]; exact hp, hnz, ?_, ?_⟩
      · rw [hext]
        simp only [adoptState]
        rw [heq]
      · intro q hq
        rw [hsp] at hq
        exact hmax q hq
  · intro hallz
    rw [hsp] at hallz
    rcases adoptAux_spec ext { s with promise := ext } zeroPN hwf' with
      ⟨hall, heq⟩ | ⟨p, hp, hnz, hgt, heq, hmax⟩
    · rw [hext]
      simp only [adoptState]
      rw [heq]
    · exact absurd (hallz p hp) (by simp [hnz])
  · intro stream2
    rcases hp2 : phase2Aux s' 0 stream2 with ⟨s'', out, r2⟩
    cases out <;> simp [runPhase2, hp2]

/-- C1 counterexample: a concrete two-attempt `Propose` run (client value
`[66]`, quorum 1).  Attempt 1 gathers a Promise reporting a prior accept
of `[88]`, adopts it, and fails Phase 2.  Attempt 2 gathers a quorum
whose only Promise reports no prior accept (`accepted_proposal` zero),
yet its Phase 2 broadcast is an Accept carrying `[88]`, not the client's
original `[66]`, and the `Propose` call returns `[88]`. -/
theorem c1_counterexample :
    let sInit : ProposerState :=
      { id := "p", highestRound := 0, currentProposal := zeroPN,
        originalValue := [66], valueToPropose := [66], promise := [], quorumSize := 1 }
    let pmA : Promise :=
      { ProposalNumber := { Round := 1, ProposerID := "p" },
        AcceptedProposal := { Round := 5, ProposerID := "a" },
        AcceptedValue := [88], From := "a1", OK := true }
    let amR : Accepted :=
      { ProposalNumber := { Round := 1, ProposerID := "p" }, Value := [],
        From := "a1", OK := false }
    let pmC : Promise :=
      { ProposalNumber := { Round := 2, ProposerID := "p" }, AcceptedProposal := zeroPN,
        AcceptedValue := [], From := "a1", OK := true }
    let amOk : Accepted :=
      { ProposalNumber := { Round := 2, ProposerID := "p" }, Value := [88],
        From := "a1", OK := true }
    let s2 : ProposerState :=
      { id := "p", highestRound := 1, currentProposal := { Round := 1, ProposerID := "p" },
        originalValue := [66], valueToPropose := [88], promise := [pmA], quorumSize := 1 }
    let s3 : ProposerState :=
      { id := "p", highestRound := 2, currentProposal := { Round := 2, ProposerID := "p" },
        originalValue := [66], valueToPropose := [88], promise := [pmC], quorumSize := 1 }
    (runPhase1 (startAttempt sInit)
        [RecvResult.msg (Msg.promise pmA), RecvResult.msg (Msg.accepted amR),
         RecvResult.msg (Msg.promise pmC), RecvResult.msg (Msg.accepted amOk)]).1
      = (s2, PhaseOut.success,
         [RecvResult.msg (Msg.accepted amR), RecvResult.msg (Msg.promise pmC),
          RecvResult.msg (Msg.accepted amOk)])
    ∧ (runPhase2 s2
        [RecvResult.msg (Msg.accepted amR), RecvResult.msg (Msg.promise pmC),
         RecvResult.msg (Msg.accepted amOk)]).1
      = (s2, PhaseOut.rejected,
         [RecvResult.msg (Msg.promise pmC), RecvResult.msg (Msg.accepted amOk)])
    ∧ (runPhase1 (startAttempt s2)
        [RecvResult.msg (Msg.promise pmC), RecvResult.msg (Msg.accepted amOk)]).1
      = (s3, PhaseOut.success, [RecvResult.msg (Msg.accepted amOk)])
    ∧ (∀ p ∈ s3.promise, p.AcceptedProposal.IsZero = true)
    ∧ (runPhase2 s3 [RecvResult.msg (Msg.accepted amOk)]).2
      = [Msg.accept
          { ProposalNumber := { Round := 2, ProposerID := "p" }
            Value := [88]
            From := "p" },
         Msg.learn
          { ProposalNumber := { Round := 2, ProposerID := "p" }
            Value := [88]
            From := "p" }]
    ∧ proposeLoop 2 sInit
        [RecvResult.msg (Msg.promise pmA), RecvResult.msg (Msg.accepted amR),
         RecvResult.msg (Msg.promise pmC), RecvResult.msg (Msg.accepted amOk)]
      = ProposeResult.value [88]
    ∧ Propose (NewProposer "p" 1) [66] 2
        [RecvResult.msg (Msg.promise pmA), RecvResult.msg (Msg.accepted amR),
         RecvResult.msg (Msg.promise pmC), RecvResult.msg (Msg.accepted amOk)]
      = ProposeResult.value [88]
    ∧ ([88] : Bytes) ≠ [66] := by
  decide

/-- C1 witness: the amended adoption statement applied to a concrete
successful Phase 1 attempt (quorum 1) that gathers one Promise reporting
a prior accept of `[88]` at round 5; the exposed consequence is that the
Phase 2 broadcast head is an Accept carrying the adopted value `[88]`. -/
theorem c1_witness :
    (ProposerState.promise
        { id := "p"
          highestRound := 1
          currentProposal := { Round := 1, ProposerID := "p" }
          originalValue := [66]
          valueToPropose := [66]
          promise := []
          quorumSize := 1 } = [])
    ∧ (∀ p ∈ ProposerState.promise
        { id := "p"
          highestRound := 1
          currentProposal := { Round := 1, ProposerID := "p" }
          originalValue := [66]
          valueToPropose := [88]
          promise :=
            [{ ProposalNumber := { Round := 1, ProposerID := "p" }
               AcceptedProposal := { Round := 5, ProposerID := "a" }
               AcceptedValue := [88]
               From := "a1"
               OK := true }]
          quorumSize := 1 },
        0 ≤ p.AcceptedProposal.Round)
    ∧ (∀ stream2,
        ((runPhase2
          { id := "p"
            highestRound := 1
            currentProposal := { Round := 1, ProposerID := "p" }
            originalValue := [66]
            valueToPropose := [88]
            promise :=
              [{ ProposalNumber := { Round := 1, ProposerID := "p" }
                 AcceptedProposal := { Round := 5, ProposerID := "a" }
                 AcceptedValue := [88]
                 From := "a1"
                 OK := true }]
            quorumSize := 1 }
          stream2).2).head? =
          some (Msg.accept
            { ProposalNumber := { Round := 1, ProposerID := "p" }
              Value := [88]
              From := "p" })) :=
  ⟨rfl, by decide,
    (c1_value_adoption
      { id := "p"
        highestRound := 1
        currentProposal := { Round := 1, ProposerID := "p" }
        originalValue := [66]
        valueToPropose := [66]
        promise := []
        quorumSize := 1 }
      [RecvResult.msg (Msg.promise
        { ProposalNumber := { Round := 1, ProposerID := "p" }
          AcceptedProposal := { Round := 5, ProposerID := "a" }
          AcceptedValue := [88]
          From := "a1"
          OK := true })]
      []
      { id := "p"
        highestRound := 1
        currentProposal := { Round := 1, ProposerID := "p" }
        originalValue := [66]
        valueToPropose := [88]
        promise :=
          [{ ProposalNumber := { Round := 1, ProposerID := "p" }
             AcceptedProposal := { Round := 5, ProposerID := "a" }
             AcceptedValue := [88]
             From := "a1"
             OK := true }]
        quorumSize := 1 }
      [Msg.prepare { ProposalNumber := { Round := 1, ProposerID := "p" }, From := "p" }]
      (by decide) rfl (by decide)).2.2⟩

/-- C4 (amended): at the start of every attempt inside `Propose`'s retry
loop the proposer clears `promise` and generates a fresh proposal number,
but `valueToPropose` and `originalValue` keep their previous values —
there is no reset of `valueToPropose` to the client's value per attempt
(that assignment happens once, at the top of `Propose`). -/
theorem c4_attempt_start_reset (s : ProposerState) :
    (startAttempt s).promise = []
    ∧ (startAttempt s).valueToPropose = s.valueToPropose
    ∧ (startAttempt s).originalValue = s.originalValue
    ∧ (startAttempt s).currentProposal =
        { Round := wrap64 (s.highestRound + 1), ProposerID := s.id } :=
  ⟨rfl, rfl, rfl, rfl⟩

/-- C4 counterexample: a concrete `Propose` run (client value `[66]`,
quorum 1) whose first attempt adopts `[88]` from a Promise and then fails
Phase 2; the state entering the second attempt still has
`valueToPropose = [88] ≠ [66]`, so the second attempt does not restart
from the client's original value. -/
theorem c4_counterexample :
    let sInit : ProposerState :=
      { id := "p", highestRound := 0, currentProposal := zeroPN,
        originalValue := [66], valueToPropose := [66], promise := [], quorumSize := 1 }
    let pmA : Promise :=
      { ProposalNumber := { Round := 1, ProposerID := "p" },
        AcceptedProposal := { Round := 5, ProposerID := "a" },
        AcceptedValue := [88], From := "a1", OK := true }
    let amR : Accepted :=
      { ProposalNumber := { Round := 1, ProposerID := "p" }, Value := [],
        From := "a1", OK := false }
    let s2 : ProposerState :=
      { id := "p", highestRound := 1, currentProposal := { Round := 1, ProposerID := "p" },
        originalValue := [66], valueToPropose := [88], promise := [pmA], quorumSize := 1 }
    (runPhase1 (startAttempt sInit)
        [RecvResult.msg (Msg.promise pmA), RecvResult.msg (Msg.accepted amR)]).1
      = (s2, PhaseOut.success, [RecvResult.msg (Msg.accepted amR)])
    ∧ (runPhase2 s2 [RecvResult.msg (Msg.accepted amR)]).1 = (s2, PhaseOut.rejected, [])
    ∧ (startAttempt s2).valueToPropose = [88]
    ∧ (startAttempt s2).originalValue = [66]
    ∧ ([88] : Bytes) ≠ [66] := by
  decide

/-- C5 (amended): the Phase 2 collection loop never modifies any
proposer field — in particular, on an `ok = false` Accepted for the
current proposal it returns `ErrRejected` with `highestRound` (the
round hint) untouched, and `handleRejection` is never invoked on the
Phase 2 path. -/
theorem c5_phase2_no_hint_update (s : ProposerState) (stream : List RecvResult) :
    ((runPhase2 s stream).1).1 = s := by
  unfold runPhase2
  have h := phase2Aux_fst stream s 0
  rcases hp : phase2Aux s 0 stream with ⟨s', out, rest⟩
  rw [hp] at h
  simp only at h
  subst h
  cases out <;> simp

/-- C5 counterexample: a Phase 1 rejection (ok=false Promise whose
`AcceptedProposal` guidance field reports round 9) raises the proposer's
`highestRound` from 1 to 9 via `handleRejection`, while a Phase 2
rejection (ok=false Accepted for the current proposal) leaves the state
— in particular `highestRound = 1` — completely unchanged.  The two
rejection paths are therefore not handled identically, contrary to the
claim. -/
theorem c5_counterexample :
    let s1 : ProposerState :=
      { id := "p", highestRound := 1, currentProposal := { Round := 1, ProposerID := "p" },
        originalValue := [7], valueToPropose := [7], promise := [], quorumSize := 1 }
    let pmRej : Promise :=
      { ProposalNumber := { Round := 1, ProposerID := "p" },
        AcceptedProposal := { Round := 9, ProposerID := "z" },
        AcceptedValue := [], From := "a2", OK := false }
    let amRej : Accepted :=
      { ProposalNumber := { Round := 1, ProposerID := "p" }, Value := [],
        From := "a2", OK := false }
    (runPhase1 s1 [RecvResult.msg (Msg.promise pmRej)]).1
      = ({ s1 with highestRound := 9 }, PhaseOut.rejected, [])
    ∧ (runPhase2 s1 [RecvResult.msg (Msg.accepted amRej)]).1
      = (s1, PhaseOut.rejected, [])
    ∧ ((9 : Int) ≠ 1) := by
  decide

/-- C6 (amended): every Promise message dispatched by `Node.routeMessage`
falls through to the `default:` arm (logged as an unknown message type
and discarded); `routeMessage` has no Promise case, and the proposer
obtains Promises only by calling `transport.Receive` itself. -/
theorem c6_promise_dropped (pm : Promise) :
    routeMessage (Msg.promise pm) = RouteAction.unknownDropped := rfl

/-- C6 counterexample: a concrete Promise dequeued by the receive loop is
dispatched to the discard arm, not to any proposer-delivery arm, so
Promise is not a recognized message kind in the node's dispatch. -/
theorem c6_counterexample :
    routeMessage (Msg.promise
      { ProposalNumber := { Round := 1, ProposerID := "p" }, AcceptedProposal := zeroPN,
        AcceptedValue := [], From := "a1", OK := true }) = RouteAction.unknownDropped := by
  decide

/-- C9: the acceptor's `HandlePrepare` grants exactly when the incoming
identifier is strictly greater than `highestPromised`, and on grant it
updates `highestPromised` and persists it (the updated storage's
`LoadPromised` returns it); `HandleAccept` grants exactly when the
incoming identifier is greater than or equal to `highestPromised` (the
code's `GreaterThan || Equal`), and on grant it updates
`highestPromised`, `acceptedProposal` and `acceptedValue` and persists
them (the updated storage loads back the proposal and the byte-wise
value); rejections leave acceptor, storage and heap unchanged.  In
particular an Accept bearing exactly the promised identifier is
accepted. -/
theorem c9_acceptor_comparators (a : Acceptor) (h : GoHeap) (mp : Prepare) (ma : Accept)
    (v : Bytes) (f : String) :
    ((HandlePrepare a mp).2.OK = mp.ProposalNumber.GreaterThan a.highestPromised)
    ∧ (mp.ProposalNumber.GreaterThan a.highestPromised = true →
        (HandlePrepare a mp).1.highestPromised = mp.ProposalNumber
        ∧ (HandlePrepare a mp).1.storage.LoadPromised = mp.ProposalNumber)
    ∧ (mp.ProposalNumber.GreaterThan a.highestPromised = false →
        (HandlePrepare a mp).1 = a)
    ∧ ((HandleAccept a h ma).2.OK = ma.ProposalNumber.GreaterEq a.highestPromised)
    ∧ (ma.ProposalNumber.GreaterEq a.highestPromised = true →
        (HandleAccept a h ma).1.1.highestPromised = ma.ProposalNumber
        ∧ (HandleAccept a h ma).1.1.acceptedProposal = ma.ProposalNumber
        ∧ (HandleAccept a h ma).1.1.acceptedValue = ma.Value
        ∧ (HandleAccept a h ma).1.1.storage.LoadPromised = ma.ProposalNumber
        ∧ (let LA := (HandleAccept a h ma).1.1.storage.LoadAccepted (HandleAccept a h ma).1.2
           LA.1.1 = ma.ProposalNumber ∧ readCell LA.2 LA.1.2 = ma.Value))
    ∧ (ma.ProposalNumber.GreaterEq a.highestPromised = false →
        (HandleAccept a h ma).1 = (a, h))
    ∧ (HandleAccept a h { ProposalNumber := a.highestPromised, Value := v, From := f }).2.OK
        = true := by
  refine ⟨?_, ?_, ?_, ?_, ?_, ?_, ?_⟩
  · cases hC : mp.ProposalNumber.GreaterThan a.highestPromised <;>
      simp [HandlePrepare, hC]
  · intro hC
    simp [HandlePrepare, hC, MemoryStorage.SavePromised, MemoryStorage.LoadPromised,
      toStorageProposal]
  · intro hC
    simp [HandlePrepare, hC]
  · cases hC : (ma.ProposalNumber.GreaterThan a.highestPromised
        || ma.ProposalNumber.Equal a.highestPromised) <;>
      simp [HandleAccept, ProposalNumber.GreaterEq, hC]
  · intro hC
    have hC' : (ma.ProposalNumber.GreaterThan a.highestPromised
        || ma.ProposalNumber.Equal a.highestPromised) = true := by
      simpa [ProposalNumber.GreaterEq] using hC
    simp [HandleAccept, hC', MemoryStorage.SavePromised, MemoryStorage.LoadPromised,
      MemoryStorage.SaveAccepted, MemoryStorage.LoadAccepted, allocCell, readSlice,
      readCell, toStorageProposal]
  · intro hC
    have hC' : (ma.ProposalNumber.GreaterThan a.highestPromised
        || ma.ProposalNumber.Equal a.highestPromised) = false := by
      simpa [ProposalNumber.GreaterEq] using hC
    simp [HandleAccept, hC']
  · simp [HandleAccept, ProposalNumber.Equal]

theorem wrap64_id {n : Int} (h0 : 0 ≤ n) (h2 : n < 2 ^ 63) : wrap64 n = n := by
  unfold wrap64
  omega

theorem runOps_inv : ∀ (ops : List POp) (s : ProposerState) (k : Int),
    0 ≤ k →
    0 ≤ s.highestRound →
    s.highestRound + ops.length + k < 2 ^ 63 →
    (∀ r ∈ rejRounds ops, 0 ≤ r ∧ r + ops.length + k < 2 ^ 63) →
    (runOps s ops).1.id = s.id
    ∧ s.highestRound ≤ (runOps s ops).1.highestRound
    ∧ 0 ≤ (runOps s ops).1.highestRound
    ∧ (runOps s ops).1.highestRound + k < 2 ^ 63
    ∧ (∀ pn ∈ (runOps s ops).2,
        s.highestRound < pn.Round ∧ pn.Round ≤ (runOps s ops).1.highestRound
          ∧ pn.ProposerID = s.id)
    ∧ (∀ r ∈ rejRounds ops, r ≤ (runOps s ops).1.highestRound)
    ∧ List.Pairwise (fun a b => a.Round < b.Round) (runOps s ops).2 := by
  intro ops
  induction ops with
  | nil =>
    intro s k hk h0 hb hr
    have hb' : s.highestRound + k < 2 ^ 63 := by simpa using hb
    refine ⟨rfl, le_refl _, h0, hb', ?_, ?_, List.Pairwise.nil⟩
    · intro pn hpn
      simp [runOps] at hpn
    · intro r hrm
      simp [rejRounds] at hrm
  | cons op rest ih =>
    intro s k hk h0 hb hr
    have hrl : (0 : Int) ≤ (rest.length : Int) := Int.natCast_nonneg _
    cases op with
    | gen =>
      have hlen : ((POp.gen :: rest).length : Int) = (rest.length : Int) + 1 := by
        push_cast [List.length_cons]
        ring
      rw [hlen] at hb
      have hb1 : s.highestRound + 1 < 2 ^ 63 := by omega
      have hwrap : wrap64 (s.highestRound + 1) = s.highestRound + 1 :=
        wrap64_id (by omega) hb1
      have hrr : rejRounds (POp.gen :: rest) = rejRounds rest := by
        simp [rejRounds]
      have hstep : runOps s (POp.gen :: rest)
          = ((runOps { s with highestRound := s.highestRound + 1 } rest).1,
             ({ Round := s.highestRound + 1, ProposerID := s.id } : ProposalNumber)
               :: (runOps { s with highestRound := s.highestRound + 1 } rest).2) := by
        simp [runOps, generateProposalNumber, hwrap]
      have hrest : ∀ r ∈ rejRounds rest, 0 ≤ r ∧ r + (rest.length : Int) + k < 2 ^ 63 := by
        intro r hrm
        obtain ⟨ha, hb'⟩ := hr r (by rw [hrr]; exact hrm)
        rw [hlen] at hb'
        exact ⟨ha, by omega⟩
      obtain ⟨cid, cle, c0, cb, cmem, crej, cpair⟩ :=
        ih { s with highestRound := s.highestRound + 1 } k hk
          (show (0 : Int) ≤ s.highestRound + 1 by omega)
          (show s.highestRound + 1 + (rest.length : Int) + k < 2 ^ 63 by omega)
          hrest
      rw [hstep, hrr]
      dsimp only
      have cle' : s.highestRound + 1
          ≤ (runOps { s with highestRound := s.highestRound + 1 } rest).1.highestRound := cle
      refine ⟨cid, by omega, c0, cb, ?_, crej, ?_⟩
      · intro q hq
        rcases List.mem_cons.mp hq with rfl | hq'
        · exact ⟨show s.highestRound < s.highestRound + 1 by omega, cle', rfl⟩
        · obtain ⟨m1, m2, m3⟩ := cmem q hq'
          have m1' : s.highestRound + 1 < q.Round := m1
          exact ⟨by omega, m2, m3⟩
      · refine List.Pairwise.cons ?_ cpair
        intro q hq
        have m1' : s.highestRound + 1 < q.Round := (cmem q hq).1
        show s.highestRound + 1 < q.Round
        omega
    | rej pn =>
      have hlen : ((POp.rej pn :: rest).length : Int) = (rest.length : Int) + 1 := by
        push_cast [List.length_cons]
        ring
      rw [hlen] at hb
      have hrr : rejRounds (POp.rej pn :: rest) = pn.Round :: rejRounds rest := by
        simp [rejRounds]
      obtain ⟨hpn0, hpnb⟩ := hr pn.Round (by rw [hrr]; exact List.mem_cons_self _ _)
      rw [hlen] at hpnb
      have hrest : ∀ r ∈ rejRounds rest, 0 ≤ r ∧ r + (rest.length : Int) + k < 2 ^ 63 := by
        intro r hrm
        obtain ⟨ha, hb'⟩ := hr r (by rw [hrr]; exact List.mem_cons_of_mem _ hrm)
        rw [hlen] at hb'
        exact ⟨ha, by omega⟩
      by_cases hc : s.highestRound < pn.Round
      · have hs1 : handleRejection s pn = { s with highestRound := pn.Round } := by
          simp [handleRejection, hc]
        have hrun : runOps s (POp.rej pn :: rest)
            = runOps { s with highestRound := pn.Round } rest := by
          simp [runOps, hs1]
        obtain ⟨cid, cle, c0, cb, cmem, crej, cpair⟩ :=
          ih { s with highestRound := pn.Round } k hk
            (show (0 : Int) ≤ pn.Round from hpn0)
            (show pn.Round + (rest.length : Int) + k < 2 ^ 63 by omega)
            hrest
        rw [hrun, hrr]
        have cle' : pn.Round
            ≤ (runOps { s with highestRound := pn.Round } rest).1.highestRound := cle
        refine ⟨cid, by omega, c0, cb, ?_, ?_, cpair⟩
        · intro q hq
          obtain ⟨m1, m2, m3⟩ := cmem q hq
          have m1' : pn.Round < q.Round := m1
          exact ⟨by omega, m2, m3⟩
        · intro r hrm
          rcases List.mem_cons.mp hrm with rfl | hrm'
          · exact cle'
          · exact crej r hrm'
      · have hs1 : handleRejection s pn = s := by
          simp [handleRejection, hc]
        have hrun : runOps s (POp.rej pn :: rest) = runOps s rest := by
          simp [runOps, hs1]
        obtain ⟨cid, cle, c0, cb, cmem, crej, cpair⟩ :=
          ih s k hk h0 (show s.highestRound + (rest.length : Int) + k < 2 ^ 63 by omega) hrest
        rw [hrun, hrr]
        refine ⟨cid, cle, c0, cb, cmem, ?_, cpair⟩
        intro r hrm
        rcases List.mem_cons.mp hrm with rfl | hrm'
        · have : pn.Round ≤ s.highestRound := not_lt.mp hc
          exact le_trans this cle
        · exact crej r hrm'

/-- C7: within one proposer, the emitted proposal identifiers are
strictly increasing (each later identifier is `GreaterThan` every earlier
one), and at every generation point the freshly generated identifier's
round strictly exceeds every round this proposer previously emitted and
every `highest_seen` round it processed through `handleRejection` —
provided all rounds involved stay below `2^63 - 1`, the bound at which
the Go `int64` increment would wrap. -/
theorem c7_monotonic_identifiers (s : ProposerState) (ops pre post : List POp)
    (hsplit : ops = pre ++ POp.gen :: post)
    (h0 : 0 ≤ s.highestRound)
    (hb : s.highestRound + ops.length < 2 ^ 63)
    (hr : ∀ r ∈ rejRounds ops, 0 ≤ r ∧ r + ops.length < 2 ^ 63) :
    List.Pairwise (fun a b => b.GreaterThan a = true) (runOps s ops).2
    ∧ (∀ pn ∈ (runOps s pre).2,
        pn.Round < (generateProposalNumber (runOps s pre).1).2.Round)
    ∧ (∀ r ∈ rejRounds pre, r < (generateProposalNumber (runOps s pre).1).2.Round) := by
  have hlen2 : (ops.length : Int) = (pre.length : Int) + (post.length : Int) + 1 := by
    rw [hsplit]
    push_cast [List.length_append, List.length_cons]
    ring
  have hrr2 : ∀ r ∈ rejRounds pre, r ∈ rejRounds ops := by
    intro r hrm
    rw [hsplit]
    simp only [rejRounds, List.filterMap_append, List.mem_append]
    exact Or.inl hrm
  obtain ⟨-, -, -, -, cmem0, -, cpair0⟩ :=
    runOps_inv ops s 0 (le_refl 0) h0
      (by rw [add_zero]; exact hb)
      (fun r hrm => ⟨(hr r hrm).1, by rw [add_zero]; exact (hr r hrm).2⟩)
  obtain ⟨-, -, c0, cb, cmem, crej, -⟩ :=
    runOps_inv pre s ((post.length : Int) + 1) (by omega) h0
      (by rw [hlen2] at hb; omega)
      (by
        intro r hrm
        obtain ⟨ha, hb'⟩ := hr r (hrr2 r hrm)
        rw [hlen2] at hb'
        exact ⟨ha, by omega⟩)
  have hple : (0 : Int) ≤ (post.length : Int) := Int.natCast_nonneg _
  have hb1 : (runOps s pre).1.highestRound + 1 < 2 ^ 63 := by omega
  have hwrap : (generateProposalNumber (runOps s pre).1).2.Round
      = (runOps s pre).1.highestRound + 1 := by
    show wrap64 ((runOps s pre).1.highestRound + 1) = (runOps s pre).1.highestRound + 1
    exact wrap64_id (by omega) hb1
  refine ⟨?_, ?_, ?_⟩
  · refine cpair0.imp ?_
    intro a b hab
    simp [ProposalNumber.GreaterThan, hab]
  · intro pn hpn
    rw [hwrap]
    have := (cmem pn hpn).2.1
    omega
  · intro r hrm
    rw [hwrap]
    have := crej r hrm
    omega

/-- C7 witness: the monotonicity statement applied to the concrete event
sequence generate, process a rejection reporting round 5, generate —
starting from a fresh proposer. -/
theorem c7_witness :
    (0 : Int) ≤ (NewProposer "p" 1).highestRound
    ∧ ((NewProposer "p" 1).highestRound
        + ([POp.gen, POp.rej { Round := 5, ProposerID := "z" }, POp.gen].length : Int)
        < 2 ^ 63)
    ∧ (List.Pairwise (fun a b => b.GreaterThan a = true)
        (runOps (NewProposer "p" 1)
          [POp.gen, POp.rej { Round := 5, ProposerID := "z" }, POp.gen]).2
      ∧ (∀ pn ∈ (runOps (NewProposer "p" 1)
            [POp.gen, POp.rej { Round := 5, ProposerID := "z" }]).2,
          pn.Round < (generateProposalNumber
            (runOps (NewProposer "p" 1)
              [POp.gen, POp.rej { Round := 5, ProposerID := "z" }]).1).2.Round)
      ∧ (∀ r ∈ rejRounds [POp.gen, POp.rej { Round := 5, ProposerID := "z" }],
          r < (generateProposalNumber
            (runOps (NewProposer "p" 1)
              [POp.gen, POp.rej { Round := 5, ProposerID := "z" }]).1).2.Round)) :=
  ⟨by decide, by decide,
    c7_monotonic_identifiers (NewProposer "p" 1)
      [POp.gen, POp.rej { Round := 5, ProposerID := "z" }, POp.gen]
      [POp.gen, POp.rej { Round := 5, ProposerID := "z" }] []
      rfl (by decide) (by decide) (by decide)⟩

/-- C8: storage round trips.  `SavePromised` then `LoadPromised` returns
the saved proposal.  `SaveAccepted` stores a defensive copy of the
caller's buffer (cell `a`), so a later `LoadAccepted` returns the saved
proposal and byte-wise the bytes that were in the buffer at save time —
even after the caller's buffer is overwritten with `w`; and overwriting
the freshly copied buffer returned by one `LoadAccepted` does not change
what the next `LoadAccepted` returns. -/
theorem c8_storage_roundtrip (m : MemoryStorage) (h : GoHeap) (p q : ProposalNumber)
    (a : Nat) (w w2 : Bytes) (ha : a < h.next) :
    MemoryStorage.LoadPromised (MemoryStorage.SavePromised m q) = q
    ∧ (let m1 := (MemoryStorage.SaveAccepted m h p (some a)).1
       let h1 := (MemoryStorage.SaveAccepted m h p (some a)).2
       let L := MemoryStorage.LoadAccepted m1 h1
       (L.1.1 = p ∧ readCell L.2 L.1.2 = readCell h a)
       ∧ (let Lw := MemoryStorage.LoadAccepted m1 (writeCell h1 a w)
          Lw.1.1 = p ∧ readCell Lw.2 Lw.1.2 = readCell h a)
       ∧ (let Lr := MemoryStorage.LoadAccepted m1 (writeCell L.2 L.1.2 w2)
          Lr.1.1 = p ∧ readCell Lr.2 Lr.1.2 = readCell h a)) := by
  have hne1 : ¬(h.next = a) := by omega
  have hne2 : ¬(h.next = h.next + 1) := by omega
  refine ⟨rfl, ?_⟩
  simp only [MemoryStorage.SaveAccepted, MemoryStorage.LoadAccepted,
    MemoryStorage.SavePromised, MemoryStorage.LoadPromised,
    allocCell, readSlice, readCell, writeCell]
  simp [hne1, hne2]

/-- C8 witness: the round-trip statement applied to a concrete storage
and a two-byte buffer at address 0 of a one-cell heap; the exposed
consequence is that `LoadAccepted` after `SaveAccepted` returns the
saved proposal number. -/
theorem c8_witness :
    0 < (GoHeap.mk (fun i => if i = 0 then [1, 2] else []) 1).next
    ∧ (MemoryStorage.LoadAccepted
        (MemoryStorage.SaveAccepted NewMemoryStorage
          (GoHeap.mk (fun i => if i = 0 then [1, 2] else []) 1)
          { Round := 3, ProposerID := "x" } (some 0)).1
        (MemoryStorage.SaveAccepted NewMemoryStorage
          (GoHeap.mk (fun i => if i = 0 then [1, 2] else []) 1)
          { Round := 3, ProposerID := "x" } (some 0)).2).1.1
      = { Round := 3, ProposerID := "x" } :=
  ⟨by decide,
    ((c8_storage_roundtrip NewMemoryStorage
      (GoHeap.mk (fun i => if i = 0 then [1, 2] else []) 1)
      { Round := 3, ProposerID := "x" } { Round := 4, ProposerID := "y" }
      0 [9] [7] (by decide)).2.1).1⟩

/-- C10: after `MemoryStorage.Close`, `LoadPromised` returns the zero
proposal number and `LoadAccepted` returns the zero proposal number with
an empty value buffer — closing erases all previously saved state. -/
theorem c10_close_resets (m : MemoryStorage) (h : GoHeap) :
    (m.Close).LoadPromised = zeroPN
    ∧ ((m.Close).LoadAccepted h).1.1 = zeroPN
    ∧ readCell ((m.Close).LoadAccepted h).2 ((m.Close).LoadAccepted h).1.2 = [] := by
  refine ⟨rfl, rfl, ?_⟩
  simp [MemoryStorage.Close, MemoryStorage.LoadAccepted, allocCell, readSlice, readCell]

end Quorum
